import Mathlib

/-!
Verification of the job-queue core: the job record data model, the
per-delivery job processor (`processJob`), the worker-pool stop signal, the
job-creation handler, and the list query. Stateful Go code is embedded as
pure state-passing functions: the Mongo collection becomes a partial map
from identifiers to job records, each fallible `UpdateOne` call becomes a
map update guarded by an environment flag recording whether that write
succeeded, and `time.Now()` values are supplied by the environment.
-/

namespace JobQueue

/-- Loosely typed payload values, as stored in the `map[string]interface{}`
payload (`models.Job.Payload`). The processor only ever inspects whether a
value is the boolean `true`, so booleans are distinguished from strings,
numbers and null. -/
inductive JVal where
  | bool (b : Bool)
  | str (s : String)
  | num (n : Int)
  | null
deriving DecidableEq

/-- A payload is a string-keyed map, embedded as an association list with
unique keys (Go map semantics); lookup is `List.lookup`. -/
abbrev Payload := List (String × JVal)

/-- Status constant `models.StatusPending`. -/
def StatusPending : String := "pending"

/-- Status constant `models.StatusProcessing`. -/
def StatusProcessing : String := "processing"

/-- Status constant `models.StatusCompleted`. -/
def StatusCompleted : String := "completed"

/-- Status constant `models.StatusFailed`. -/
def StatusFailed : String := "failed"

/-- Retry bound: `models.MaxRetries = 3`, and the identical local constant
`const MaxRetries = 3` inside `processJob`. -/
def MaxRetries : Int := 3

/-- The persisted job record `models.Job`. Identifiers are embedded as
naturals and timestamps as naturals; `retryCount` is a Go `int`, embedded
as `Int`. `status` is one of the four literal strings above. -/
structure Job where
  id : Nat
  type : String
  payload : Payload
  retryCount : Int
  status : String
  createdAt : Nat
  updatedAt : Nat
deriving DecidableEq

/-- The jobs collection, as an abstract key-addressed repository:
a partial map from identifier to record. -/
abbrev Store := Nat → Option Job

/-- `UpdateOne` with filter `{_id: jobID}` and a `$set` document: the
matched record, when present, is replaced by `f` applied to it; every
other record is untouched, and a missing record stays missing. -/
def updateOne (store : Store) (jobID : Nat) (f : Job → Job) : Store :=
  fun k => if k = jobID then (store k).map f else store k

/-- The Go type assertion `v, ok := x.(bool)`: yields the boolean value
together with the `ok` flag; any non-boolean (or absent) value yields
`(false, false)`. -/
def typeAssertBool : Option JVal → Bool × Bool
  | some (JVal.bool b) => (b, true)
  | _ => (false, false)

/-- The simulated execution hook, line 87 of the worker:
`if val, ok := job.Payload["fail"].(bool); ok && val` — execution fails
exactly when this returns `true`. -/
def execFails (p : Payload) : Bool :=
  let vo := typeAssertBool (p.lookup "fail")
  vo.2 && vo.1

/-- Environment of one processing attempt: whether each of the three
fallible status writes succeeds, and the `time.Now()` value observed at
each write. -/
structure Env where
  procWriteOk : Bool
  failWriteOk : Bool
  compWriteOk : Bool
  nowProc : Nat
  nowFail : Nat
  nowComp : Nat

/-- Result of one processing attempt: the store after the attempt, whether
the identifier was re-enqueued, and the sequence of status values actually
persisted during the attempt, in order. -/
structure ProcResult where
  store : Store
  requeued : Bool
  statusesWritten : List String

/-- `JobWorker.processJob`, lines 63–123. Fetch the record; if absent,
return. Persist status `Processing`; if that write fails, return. If the
payload maps `"fail"` to boolean `true`: persist status `Failed` together
with `retryCount + 1` (a failure of this write is only logged — the code
does not return there), then re-enqueue exactly when the incremented count
is below `MaxRetries`. Otherwise persist status `Completed`. -/
def processJob (env : Env) (store : Store) (jobID : Nat) : ProcResult :=
  match store jobID with
  | none => ⟨store, false, []⟩
  | some job =>
    if env.procWriteOk = false then ⟨store, false, []⟩
    else
      let store1 := updateOne store jobID fun j =>
        { j with status := StatusProcessing, updatedAt := env.nowProc }
      if execFails job.payload then
        let newRetryCount := job.retryCount + 1
        let store2 :=
          if env.failWriteOk then
            updateOne store1 jobID fun j =>
              { j with status := StatusFailed, retryCount := newRetryCount,
                       updatedAt := env.nowFail }
          else store1
        ⟨store2, decide (newRetryCount < MaxRetries),
          StatusProcessing :: (if env.failWriteOk then [StatusFailed] else [])⟩
      else
        if env.compWriteOk = false then ⟨store1, false, [StatusProcessing]⟩
        else
          ⟨updateOne store1 jobID fun j =>
              { j with status := StatusCompleted, updatedAt := env.nowComp },
            false, [StatusProcessing, StatusCompleted]⟩

/-- `JobWorker.updateStatus`, lines 126–139: sets status and the updated
timestamp of the matched record (errors are ignored by the code). -/
def updateStatus (store : Store) (jobID : Nat) (status : String) (now : Nat) : Store :=
  updateOne store jobID fun j => { j with status := status, updatedAt := now }

/-- The job document built by `JobHandler.CreateJob`, lines 58–66:
status `Pending`, retry count 0, both timestamps set to creation time. -/
def mkJob (id : Nat) (ty : String) (p : Payload) (now : Nat) : Job :=
  { id := id, type := ty, payload := p, retryCount := 0,
    status := StatusPending, createdAt := now, updatedAt := now }

/-- Sort key of the list query: `SetSort(bson.M{"createdAt": -1})`,
creation time descending. -/
def createdAtDesc (a b : Job) : Bool := decide (b.createdAt ≤ a.createdAt)

/-- `JobHandler.ListJobs`, lines 131–160: query with limit 50, sorted by
`createdAt` descending. -/
def listJobs (jobs : List Job) : List Job :=
  (jobs.mergeSort createdAtDesc).take 50

/-- What a worker observes in one iteration of its `select` loop. -/
inductive WorkerObs where
  | dequeued (jobID : Nat)
  | exited
deriving DecidableEq

/-- One iteration of the worker loop, lines 49–59: a two-case `select`
over the job channel and the stop channel. A receive from the job channel
is ready exactly when an identifier is buffered; a receive from the stop
channel is ready exactly when `Stop()` has closed it (`stopClosed`). Go
chooses uniformly at random among the ready cases, embedded here as a
nondeterministic choice: every ready case is a possible outcome. -/
inductive workerSelect : Bool → List Nat → WorkerObs → Prop
  | takeJob (stopClosed : Bool) (jobID : Nat) (rest : List Nat) :
      workerSelect stopClosed (jobID :: rest) (WorkerObs.dequeued jobID)
  | takeStop (queue : List Nat) :
      workerSelect true queue WorkerObs.exited

/-- Repeated delivery of one identifier: run `processJob` and, as long as
the attempt re-enqueued the identifier, deliver it again with the next
environment. Returns the per-attempt results in order; `fuel` bounds the
number of deliveries. -/
def runLoopTrace : Nat → (Nat → Env) → Store → Nat → List ProcResult
  | 0, _, _, _ => []
  | n + 1, envs, store, jobID =>
    let r := processJob (envs 0) store jobID
    r :: (if r.requeued then runLoopTrace n (fun k => envs (k + 1)) r.store jobID else [])

/-- State of the whole core: the persistent store plus the FIFO queue of
identifiers (a delivery consumes the head; enqueues append). -/
structure SysState where
  store : Store
  queue : List Nat

/-- Initial state: empty store, empty queue. -/
def initState : SysState := ⟨fun _ => none, []⟩

/-- Operations of the core, under the single-delivery discipline (a
delivery is atomic, and producers enqueue only freshly inserted
identifiers, as `CreateJob` does). `create` is `JobHandler.CreateJob`
after validation: insert a fresh record built by `mkJob` and enqueue its
identifier. `deliver` is a worker picking the queue head and running
`processJob` with some environment; a re-enqueue appends the identifier
back. -/
inductive SysStep : SysState → SysState → Prop
  | create (s : SysState) (id : Nat) (ty : String) (p : Payload) (now : Nat) :
      s.store id = none → ty ≠ "" → p ≠ [] →
      SysStep s ⟨fun k => if k = id then some (mkJob id ty p now) else s.store k,
                 s.queue ++ [id]⟩
  | deliver (s : SysState) (env : Env) (jobID : Nat) (rest : List Nat) :
      s.queue = jobID :: rest →
      SysStep s ⟨(processJob env s.store jobID).store,
                 rest ++ (if (processJob env s.store jobID).requeued then [jobID] else [])⟩

/-- States reachable from the initial state by core operations. -/
def Reachable (s : SysState) : Prop := Relation.ReflTransGen SysStep initState s

/-- The fields of a record that processing never writes: identifier, type,
payload, creation time. -/
def frameOf (j : Job) : Nat × String × Payload × Nat := (j.id, j.type, j.payload, j.createdAt)

theorem updateOne_same (s : Store) (i : Nat) (f : Job → Job) :
    updateOne s i f i = (s i).map f := by
  simp [updateOne]

theorem updateOne_other (s : Store) (i k : Nat) (f : Job → Job) (h : k ≠ i) :
    updateOne s i f k = s k := by
  simp [updateOne, h]

theorem updateOne_map_eq {β : Type} (g : Job → β) (s : Store) (i : Nat) (f : Job → Job)
    (hf : ∀ j, g (f j) = g j) (k : Nat) :
    ((updateOne s i f) k).map g = (s k).map g := by
  unfold updateOne
  split
  · cases s k <;> simp [hf]
  · rfl

theorem processJob_store_frame (env : Env) (store : Store) (jobID k : Nat) :
    ((processJob env store jobID).store k).map frameOf = (store k).map frameOf := by
  unfold processJob
  cases hfind : store jobID with
  | none => rfl
  | some job =>
    dsimp only
    split_ifs
    · rfl
    · rw [updateOne_map_eq, updateOne_map_eq] <;> exact fun j => rfl
    · rw [updateOne_map_eq]; exact fun j => rfl
    · rw [updateOne_map_eq]; exact fun j => rfl
    · rw [updateOne_map_eq, updateOne_map_eq] <;> exact fun j => rfl

/-- C10: execution reports failure exactly when the payload maps the key
`"fail"` to the boolean value `true`; an absent `"fail"` key, or a
non-boolean value such as the string `"true"`, executes as success. -/
theorem exec_failure_iff_fail_bool_true :
    (∀ p : Payload, execFails p = true ↔ p.lookup "fail" = some (JVal.bool true)) ∧
    execFails [("fail", JVal.str "true")] = false ∧
    execFails [] = false ∧
    execFails [("fail", JVal.bool true)] = true := by
  refine ⟨fun p => ?_, rfl, rfl, rfl⟩
  cases h : p.lookup "fail" with
  | none => simp [execFails, typeAssertBool, h]
  | some v => cases v <;> simp [execFails, typeAssertBool, h]

/-- C7: a delivery whose fetch finds no record leaves every record of the
store unchanged, issues no write, and does not re-enqueue the
identifier. -/
theorem notfound_delivery_noop (env : Env) (store : Store) (jobID : Nat)
    (h : store jobID = none) :
    (processJob env store jobID).store = store ∧
    (processJob env store jobID).requeued = false ∧
    (processJob env store jobID).statusesWritten = [] := by
  unfold processJob
  rw [h]
  exact ⟨rfl, rfl, rfl⟩

/-- Concrete instance of `notfound_delivery_noop` on the empty store. -/
theorem notfound_delivery_noop_witness :
    (processJob ⟨true, true, true, 0, 0, 0⟩ (fun _ => none) 7).store = (fun _ => none : Store) ∧
    (processJob ⟨true, true, true, 0, 0, 0⟩ (fun _ => none) 7).requeued = false ∧
    (processJob ⟨true, true, true, 0, 0, 0⟩ (fun _ => none) 7).statusesWritten = [] :=
  notfound_delivery_noop ⟨true, true, true, 0, 0, 0⟩ (fun _ => none) 7 rfl

/-- C8: processing writes only the status, retry-count and updated-at
fields. A delivery leaves every record's identifier, type, payload and
creation time unchanged, deletes no record (and creates none), and the
auxiliary `updateStatus` likewise touches only status and the timestamp,
leaving even the retry count unchanged. -/
theorem processor_writes_only_status_fields (env : Env) (store : Store)
    (jobID k : Nat) (st : String) (now : Nat) :
    ((processJob env store jobID).store k).map frameOf = (store k).map frameOf ∧
    ((processJob env store jobID).store k).isSome = (store k).isSome ∧
    ((updateStatus store jobID st now) k).map frameOf = (store k).map frameOf ∧
    ((updateStatus store jobID st now) k).map Job.retryCount = (store k).map Job.retryCount := by
  refine ⟨processJob_store_frame env store jobID k, ?_, ?_, ?_⟩
  · have h := processJob_store_frame env store jobID k
    have := congrArg Option.isSome h
    simpa using this
  · unfold updateStatus
    apply updateOne_map_eq
    exact fun j => rfl
  · unfold updateStatus
    apply updateOne_map_eq
    exact fun j => rfl

theorem processJob_fail_spec (env : Env) (store : Store) (jobID : Nat) (job : Job)
    (hfind : store jobID = some job) (hexec : execFails job.payload = true)
    (hproc : env.procWriteOk = true) (hfail : env.failWriteOk = true) :
    (processJob env store jobID).store jobID =
      some { job with status := StatusFailed, retryCount := job.retryCount + 1,
                      updatedAt := env.nowFail } ∧
    (∀ k, k ≠ jobID → (processJob env store jobID).store k = store k) ∧
    (processJob env store jobID).requeued = decide (job.retryCount + 1 < MaxRetries) ∧
    (processJob env store jobID).statusesWritten = [StatusProcessing, StatusFailed] := by
  unfold processJob
  rw [hfind]
  refine ⟨?_, ?_, ?_, ?_⟩
  · simp [hproc, hfail, hexec, updateOne, hfind]
  · intro k hk
    simp [hproc, hfail, hexec, updateOne, hk]
  · simp [hproc, hfail, hexec]
  · simp [hproc, hfail, hexec]

theorem processJob_fail_noWrite_spec (env : Env) (store : Store) (jobID : Nat) (job : Job)
    (hfind : store jobID = some job) (hexec : execFails job.payload = true)
    (hproc : env.procWriteOk = true) (hfail : env.failWriteOk = false) :
    (processJob env store jobID).store jobID =
      some { job with status := StatusProcessing, updatedAt := env.nowProc } ∧
    (∀ k, k ≠ jobID → (processJob env store jobID).store k = store k) ∧
    (processJob env store jobID).requeued = decide (job.retryCount + 1 < MaxRetries) ∧
    (processJob env store jobID).statusesWritten = [StatusProcessing] := by
  unfold processJob
  rw [hfind]
  refine ⟨?_, ?_, ?_, ?_⟩
  · simp [hproc, hfail, hexec, updateOne, hfind]
  · intro k hk
    simp [hproc, hfail, hexec, updateOne, hk]
  · simp [hproc, hfail, hexec]
  · simp [hproc, hfail, hexec]

theorem processJob_success_spec (env : Env) (store : Store) (jobID : Nat) (job : Job)
    (hfind : store jobID = some job) (hexec : execFails job.payload = false)
    (hproc : env.procWriteOk = true) (hcomp : env.compWriteOk = true) :
    (processJob env store jobID).store jobID =
      some { job with status := StatusCompleted, updatedAt := env.nowComp } ∧
    (∀ k, k ≠ jobID → (processJob env store jobID).store k = store k) ∧
    (processJob env store jobID).requeued = false ∧
    (processJob env store jobID).statusesWritten = [StatusProcessing, StatusCompleted] := by
  unfold processJob
  rw [hfind]
  refine ⟨?_, ?_, ?_, ?_⟩
  · simp [hproc, hcomp, hexec, updateOne, hfind]
  · intro k hk
    simp [hproc, hcomp, hexec, updateOne, hk]
  · simp [hproc, hcomp, hexec]
  · simp [hproc, hcomp, hexec]

/-- C1: on a delivery whose execution fails, with the record found and the
writes of the attempt succeeding, the processor persists exactly
`retryCount + 1` together with status `Failed` and the updated timestamp,
and re-enqueues the identifier if and only if the incremented count is
strictly below `MaxRetries` (3). -/
theorem failed_delivery_increments_and_requeues_iff (env : Env) (store : Store)
    (jobID : Nat) (job : Job)
    (hfind : store jobID = some job) (hexec : execFails job.payload = true)
    (hproc : env.procWriteOk = true) (hfail : env.failWriteOk = true) :
    (processJob env store jobID).store jobID =
      some { job with status := StatusFailed, retryCount := job.retryCount + 1,
                      updatedAt := env.nowFail } ∧
    ((processJob env store jobID).requeued = true ↔ job.retryCount + 1 < MaxRetries) := by
  obtain ⟨h1, _, h3, _⟩ := processJob_fail_spec env store jobID job hfind hexec hproc hfail
  refine ⟨h1, ?_⟩
  rw [h3]
  exact decide_eq_true_iff

/-- Concrete instance of `failed_delivery_increments_and_requeues_iff`: a
fresh job with payload `{"fail": true}` ends the delivery with status
`Failed`, retry count 1, and is re-enqueued. -/
theorem failed_delivery_witness :
    (processJob ⟨true, true, true, 1, 2, 3⟩
        (fun k => if k = 0 then some (mkJob 0 "email" [("fail", JVal.bool true)] 0) else none)
        0).store 0 =
      some { mkJob 0 "email" [("fail", JVal.bool true)] 0 with
              status := StatusFailed, retryCount := 0 + 1, updatedAt := 2 } ∧
    ((processJob ⟨true, true, true, 1, 2, 3⟩
        (fun k => if k = 0 then some (mkJob 0 "email" [("fail", JVal.bool true)] 0) else none)
        0).requeued = true ↔ (mkJob 0 "email" [("fail", JVal.bool true)] 0).retryCount + 1 < MaxRetries) := by
  have h := failed_delivery_increments_and_requeues_iff ⟨true, true, true, 1, 2, 3⟩
    (fun k => if k = 0 then some (mkJob 0 "email" [("fail", JVal.bool true)] 0) else none)
    0 (mkJob 0 "email" [("fail", JVal.bool true)] 0) rfl rfl rfl rfl
  exact h

/-- C5: on a delivery whose execution succeeds, with the record found and
the writes of the attempt succeeding, the processor persists exactly one
transition to `Completed` with an updated timestamp, the persisted retry
count stays at 0 for a job that never failed, and the identifier is not
re-enqueued. -/
theorem success_delivery_completes_once (env : Env) (store : Store)
    (jobID : Nat) (job : Job)
    (hfind : store jobID = some job) (hexec : execFails job.payload = false)
    (hproc : env.procWriteOk = true) (hcomp : env.compWriteOk = true)
    (hrc : job.retryCount = 0) :
    (processJob env store jobID).store jobID =
      some { job with status := StatusCompleted, updatedAt := env.nowComp } ∧
    ((processJob env store jobID).store jobID).map Job.retryCount = some 0 ∧
    (processJob env store jobID).requeued = false ∧
    (processJob env store jobID).statusesWritten.count StatusCompleted = 1 := by
  obtain ⟨h1, _, h3, h4⟩ := processJob_success_spec env store jobID job hfind hexec hproc hcomp
  refine ⟨h1, ?_, h3, ?_⟩
  · rw [h1]
    simp [hrc]
  · rw [h4]
    rfl

/-- Concrete instance of `success_delivery_completes_once`: a fresh job
with payload `{"fail": false}` completes with retry count 0 and no
re-enqueue. -/
theorem success_delivery_witness :
    (processJob ⟨true, true, true, 1, 2, 3⟩
        (fun k => if k = 0 then some (mkJob 0 "email" [("fail", JVal.bool false)] 0) else none)
        0).store 0 =
      some { mkJob 0 "email" [("fail", JVal.bool false)] 0 with
              status := StatusCompleted, updatedAt := 3 } ∧
    ((processJob ⟨true, true, true, 1, 2, 3⟩
        (fun k => if k = 0 then some (mkJob 0 "email" [("fail", JVal.bool false)] 0) else none)
        0).store 0).map Job.retryCount = some 0 ∧
    (processJob ⟨true, true, true, 1, 2, 3⟩
        (fun k => if k = 0 then some (mkJob 0 "email" [("fail", JVal.bool false)] 0) else none)
        0).requeued = false ∧
    (processJob ⟨true, true, true, 1, 2, 3⟩
        (fun k => if k = 0 then some (mkJob 0 "email" [("fail", JVal.bool false)] 0) else none)
        0).statusesWritten.count StatusCompleted = 1 :=
  success_delivery_completes_once ⟨true, true, true, 1, 2, 3⟩
    (fun k => if k = 0 then some (mkJob 0 "email" [("fail", JVal.bool false)] 0) else none)
    0 (mkJob 0 "email" [("fail", JVal.bool false)] 0) rfl rfl rfl rfl rfl

theorem runLoopTrace_three (m : Nat) (envs : Nat → Env) (store : Store) (jobID : Nat)
    (h1 : (processJob (envs 0) store jobID).requeued = true)
    (h2 : (processJob (envs 1) (processJob (envs 0) store jobID).store jobID).requeued = true)
    (h3 : (processJob (envs 2) (processJob (envs 1)
            (processJob (envs 0) store jobID).store jobID).store jobID).requeued = false) :
    runLoopTrace (3 + m) envs store jobID =
      [processJob (envs 0) store jobID,
       processJob (envs 1) (processJob (envs 0) store jobID).store jobID,
       processJob (envs 2) (processJob (envs 1)
         (processJob (envs 0) store jobID).store jobID).store jobID] := by
  have e1 : 3 + m = 2 + m + 1 := by omega
  rw [e1]
  show processJob (envs 0) store jobID ::
      (if (processJob (envs 0) store jobID).requeued then
        runLoopTrace (2 + m) (fun k => envs (k + 1))
          (processJob (envs 0) store jobID).store jobID
      else []) = _
  rw [h1, if_pos rfl]
  congr 1
  have e2 : 2 + m = 1 + m + 1 := by omega
  rw [e2]
  show processJob (envs 1) (processJob (envs 0) store jobID).store jobID ::
      (if (processJob (envs 1) (processJob (envs 0) store jobID).store jobID).requeued then
        runLoopTrace (1 + m) (fun k => envs (k + 2))
          (processJob (envs 1) (processJob (envs 0) store jobID).store jobID).store jobID
      else []) = _
  rw [h2, if_pos rfl]
  congr 1
  have e3 : 1 + m = m + 1 := by omega
  rw [e3]
  show processJob (envs 2) (processJob (envs 1)
        (processJob (envs 0) store jobID).store jobID).store jobID ::
      (if (processJob (envs 2) (processJob (envs 1)
            (processJob (envs 0) store jobID).store jobID).store jobID).requeued then
        runLoopTrace m (fun k => envs (k + 3))
          (processJob (envs 2) (processJob (envs 1)
            (processJob (envs 0) store jobID).store jobID).store jobID).store jobID
      else []) = _
  rw [h3, if_neg Bool.false_ne_true]

/-- C2: a job created with payload `{"fail": true}` (retry count 0),
delivered repeatedly until no re-enqueue occurs, with the writes of each
attempt succeeding, is delivered exactly three times; no delivery ever
persists `Completed` or leaves the record `Completed` (it is `Failed`
after every attempt), and the final delivery leaves the record `Failed`
with retry count 3 and does not re-enqueue. -/
theorem fail_job_exhausts_retries (fuel : Nat) (envs : Nat → Env) (store : Store)
    (jobID : Nat) (job : Job)
    (hfind : store jobID = some job)
    (hexec : execFails job.payload = true)
    (hrc : job.retryCount = 0)
    (hok : ∀ k, (envs k).procWriteOk = true ∧ (envs k).failWriteOk = true)
    (hfuel : 3 ≤ fuel) :
    (runLoopTrace fuel envs store jobID).length = 3 ∧
    (∀ r ∈ runLoopTrace fuel envs store jobID,
        StatusCompleted ∉ r.statusesWritten ∧
        (r.store jobID).map Job.status = some StatusFailed) ∧
    (∃ r, (runLoopTrace fuel envs store jobID).getLast? = some r ∧
        r.requeued = false ∧
        (r.store jobID).map Job.retryCount = some 3 ∧
        (r.store jobID).map Job.status = some StatusFailed) := by
  obtain ⟨m, hm⟩ := Nat.le.dest hfuel
  subst hm
  have hok0 := hok 0
  have hok1 := hok 1
  have hok2 := hok 2
  have h1 := processJob_fail_spec (envs 0) store jobID job hfind hexec hok0.1 hok0.2
  have hrq1 : (processJob (envs 0) store jobID).requeued = true := by
    rw [h1.2.2.1, hrc]
    decide
  have h2 := processJob_fail_spec (envs 1) _ jobID _ h1.1 hexec hok1.1 hok1.2
  have hrq2 : (processJob (envs 1) (processJob (envs 0) store jobID).store jobID).requeued = true := by
    rw [h2.2.2.1]
    show decide (job.retryCount + 1 + 1 < MaxRetries) = true
    rw [hrc]
    decide
  have h3 := processJob_fail_spec (envs 2) _ jobID _ h2.1 hexec hok2.1 hok2.2
  have hrq3 : (processJob (envs 2) (processJob (envs 1)
      (processJob (envs 0) store jobID).store jobID).store jobID).requeued = false := by
    rw [h3.2.2.1]
    show decide (job.retryCount + 1 + 1 + 1 < MaxRetries) = false
    rw [hrc]
    decide
  have hT := runLoopTrace_three m envs store jobID hrq1 hrq2 hrq3
  rw [hT]
  refine ⟨rfl, ?_, ?_⟩
  · intro r hr
    have hr3 : r = processJob (envs 0) store jobID ∨
        r = processJob (envs 1) (processJob (envs 0) store jobID).store jobID ∨
        r = processJob (envs 2) (processJob (envs 1)
          (processJob (envs 0) store jobID).store jobID).store jobID := by
      simpa using hr
    rcases hr3 with hcase | hcase | hcase
    · refine hcase ▸ ⟨?_, ?_⟩
      · rw [h1.2.2.2]
        decide
      · rw [h1.1]
        rfl
    · refine hcase ▸ ⟨?_, ?_⟩
      · rw [h2.2.2.2]
        decide
      · rw [h2.1]
        rfl
    · refine hcase ▸ ⟨?_, ?_⟩
      · rw [h3.2.2.2]
        decide
      · rw [h3.1]
        rfl
  · refine ⟨processJob (envs 2) (processJob (envs 1)
        (processJob (envs 0) store jobID).store jobID).store jobID, rfl, hrq3, ?_, ?_⟩
    · rw [h3.1]
      show some (job.retryCount + 1 + 1 + 1) = some 3
      rw [hrc]
      norm_num
    · rw [h3.1]
      rfl

/-- Concrete instance of `fail_job_exhausts_retries`: a fresh job with
payload `{"fail": true}`, delivered with all writes succeeding, is
delivered exactly three times. -/
theorem fail_job_exhausts_retries_witness :
    (runLoopTrace 5 (fun _ => ⟨true, true, true, 1, 2, 3⟩)
      (fun k => if k = 0 then some (mkJob 0 "email" [("fail", JVal.bool true)] 0) else none)
      0).length = 3 :=
  (fail_job_exhausts_retries 5 (fun _ => ⟨true, true, true, 1, 2, 3⟩)
    (fun k => if k = 0 then some (mkJob 0 "email" [("fail", JVal.bool true)] 0) else none)
    0 (mkJob 0 "email" [("fail", JVal.bool true)] 0) rfl rfl rfl
    (fun k => ⟨rfl, rfl⟩) (by omega)).1

/-- A one-record store holding a fresh job whose payload requests
failure. -/
def failStore : Store :=
  fun k => if k = 0 then some (mkJob 0 "email" [("fail", JVal.bool true)] 0) else none

/-- The write recording `Failed` status and the incremented retry count
fails in this environment (`failWriteOk = false`); the other writes
succeed. -/
def failWriteEnv : Env := ⟨true, false, true, 1, 2, 3⟩

/-- Counterexample to the claim that a failed persist call ends the
attempt with no re-enqueue: with the `Failed`-status write failing, the
code merely logs and still re-enqueues the identifier (the persisted
retry count is left at 0, yet `requeued = true`). -/
theorem failed_write_still_requeues :
    failWriteEnv.failWriteOk = false ∧
    (processJob failWriteEnv failStore 0).requeued = true ∧
    ((processJob failWriteEnv failStore 0).store 0).map Job.retryCount = some 0 := by
  exact ⟨rfl, rfl, rfl⟩

/-- C3 amended: a delivery whose `Processing` write fails ends with the
store untouched and no re-enqueue; a delivery whose `Completed` write
fails ends with no re-enqueue; but a delivery whose `Failed`-status write
fails only logs it — the persisted retry count is unchanged, yet the
attempt still proceeds to the re-enqueue decision, re-enqueueing exactly
when the (unpersisted) incremented count is below `MaxRetries`. -/
theorem store_write_failure_behaviour (env : Env) (store : Store) (jobID : Nat)
    (job : Job) (hfind : store jobID = some job) :
    (env.procWriteOk = false →
      (processJob env store jobID).store = store ∧
      (processJob env store jobID).requeued = false ∧
      (processJob env store jobID).statusesWritten = []) ∧
    (execFails job.payload = false → env.procWriteOk = true → env.compWriteOk = false →
      (processJob env store jobID).requeued = false ∧
      (processJob env store jobID).statusesWritten = [StatusProcessing]) ∧
    (execFails job.payload = true → env.procWriteOk = true → env.failWriteOk = false →
      ((processJob env store jobID).store jobID).map Job.retryCount = some job.retryCount ∧
      (processJob env store jobID).statusesWritten = [StatusProcessing] ∧
      (processJob env store jobID).requeued = decide (job.retryCount + 1 < MaxRetries)) := by
  refine ⟨?_, ?_, ?_⟩
  · intro hp
    unfold processJob
    rw [hfind]
    simp [hp]
  · intro hexec hp hc
    unfold processJob
    rw [hfind]
    simp [hexec, hp, hc]
  · intro hexec hp hf
    obtain ⟨ha, _, hc, hd⟩ := processJob_fail_noWrite_spec env store jobID job hfind hexec hp hf
    refine ⟨?_, hd, hc⟩
    rw [ha]
    rfl

/-- Concrete instance of `store_write_failure_behaviour` on `failStore`:
the failed `Failed`-status write leaves the retry count at 0 and the
identifier is still re-enqueued. -/
theorem store_write_failure_behaviour_witness :
    ((processJob failWriteEnv failStore 0).store 0).map Job.retryCount =
      some (mkJob 0 "email" [("fail", JVal.bool true)] 0).retryCount ∧
    (processJob failWriteEnv failStore 0).statusesWritten = [StatusProcessing] ∧
    (processJob failWriteEnv failStore 0).requeued =
      decide ((mkJob 0 "email" [("fail", JVal.bool true)] 0).retryCount + 1 < MaxRetries) :=
  (store_write_failure_behaviour failWriteEnv failStore 0
    (mkJob 0 "email" [("fail", JVal.bool true)] 0) rfl).2.2 rfl rfl rfl

/-- Counterexample to the claim that after `Stop()` no worker dequeues a
buffered identifier: once the stop channel is closed, a worker whose
queue also holds a buffered identifier has both `select` cases ready, and
Go chooses among ready cases at random — dequeuing identifier 5 is a
possible outcome. -/
theorem dequeue_after_stop_possible :
    workerSelect true [5] (WorkerObs.dequeued 5) :=
  workerSelect.takeJob true 5 []

/-- C4 amended: after `Stop()` the stop case is ready, so every worker
can always exit, and a worker whose queue is empty can only exit (and a
worker never exits before `Stop()`); but identifiers still buffered in
the queue may nondeterministically be dequeued and processed even after
`Stop()` — there is no guarantee they remain unprocessed. -/
theorem stop_signal_behaviour :
    (∀ queue : List Nat, workerSelect true queue WorkerObs.exited) ∧
    (∀ o : WorkerObs, workerSelect true [] o → o = WorkerObs.exited) ∧
    (∀ (stopClosed : Bool) (queue : List Nat),
        workerSelect stopClosed queue WorkerObs.exited → stopClosed = true) := by
  refine ⟨fun queue => workerSelect.takeStop queue, ?_, ?_⟩
  · intro o h
    cases h with
    | takeStop => rfl
  · intro b queue h
    cases h with
    | takeStop => rfl

/-- Concrete instance of `stop_signal_behaviour`: with the stop channel
closed and an empty queue, exiting is possible and is the only possible
observation. -/
theorem stop_signal_behaviour_witness :
    workerSelect true ([] : List Nat) WorkerObs.exited ∧
    WorkerObs.exited = WorkerObs.exited ∧
    true = true :=
  ⟨stop_signal_behaviour.1 [],
   stop_signal_behaviour.2.1 WorkerObs.exited (workerSelect.takeStop []),
   stop_signal_behaviour.2.2 true [] (workerSelect.takeStop [])⟩

theorem createdAtDesc_trans (a b c : Job) (hab : createdAtDesc a b = true)
    (hbc : createdAtDesc b c = true) : createdAtDesc a c = true := by
  simp only [createdAtDesc, decide_eq_true_eq] at *
  omega

theorem createdAtDesc_total (a b : Job) :
    (createdAtDesc a b || createdAtDesc b a) = true := by
  simp only [createdAtDesc, Bool.or_eq_true, decide_eq_true_eq]
  omega

/-- C9: the list query returns at most 50 records, sorted by creation
time descending; when the store holds 60 records it returns exactly
50. -/
theorem list_query_returns_recent_fifty (jobs : List Job) :
    (listJobs jobs).length ≤ 50 ∧
    List.Sorted (fun a b : Job => b.createdAt ≤ a.createdAt) (listJobs jobs) ∧
    (jobs.length = 60 → (listJobs jobs).length = 50) := by
  refine ⟨?_, ?_, ?_⟩
  · unfold listJobs
    rw [List.length_take]
    exact min_le_left _ _
  · have hs := List.sorted_mergeSort createdAtDesc_trans createdAtDesc_total jobs
    have hs2 : List.Pairwise (fun a b : Job => b.createdAt ≤ a.createdAt)
        (jobs.mergeSort createdAtDesc) := by
      refine hs.imp ?_
      intro a b h
      exact of_decide_eq_true h
    exact hs2.sublist (List.take_sublist 50 _)
  · intro h60
    unfold listJobs
    rw [List.length_take, List.length_mergeSort, h60]
    rfl

/-- Concrete instance of `list_query_returns_recent_fifty`: 60 submitted
records yield a listing of exactly 50. -/
theorem list_query_returns_recent_fifty_witness :
    (listJobs (List.replicate 60 (mkJob 0 "email" [("k", JVal.null)] 0))).length = 50 :=
  (list_query_returns_recent_fifty
    (List.replicate 60 (mkJob 0 "email" [("k", JVal.null)] 0))).2.2 (by simp)

theorem processJob_other_keys (env : Env) (store : Store) (jobID k : Nat)
    (hk : k ≠ jobID) : (processJob env store jobID).store k = store k := by
  unfold processJob
  cases hfind : store jobID with
  | none => rfl
  | some job =>
    dsimp only
    split_ifs <;> simp [updateOne, hk]

theorem processJob_at_id (env : Env) (store : Store) (jobID : Nat) (job : Job)
    (hfind : store jobID = some job) :
    ∃ j', (processJob env store jobID).store jobID = some j' ∧
      (j'.retryCount = job.retryCount ∨ j'.retryCount = job.retryCount + 1) ∧
      ((processJob env store jobID).requeued = true →
        job.retryCount + 1 < MaxRetries) := by
  unfold processJob
  rw [hfind]
  dsimp only
  split_ifs with h1 h2 h3 h4
  · exact ⟨job, hfind, Or.inl rfl, fun h => absurd h (by simp)⟩
  · refine ⟨{ job with
        status := StatusFailed,
        retryCount := job.retryCount + 1,
        updatedAt := env.nowFail }, ?_, Or.inr rfl, fun h => of_decide_eq_true h⟩
    dsimp only
    rw [updateOne_same, updateOne_same, hfind]
    rfl
  · refine ⟨{ job with status := StatusProcessing, updatedAt := env.nowProc },
        ?_, Or.inl rfl, fun h => of_decide_eq_true h⟩
    dsimp only
    rw [updateOne_same, hfind]
    rfl
  · refine ⟨{ job with status := StatusProcessing, updatedAt := env.nowProc },
        ?_, Or.inl rfl, fun h => absurd h (by simp)⟩
    dsimp only
    rw [updateOne_same, hfind]
    rfl
  · refine ⟨{ job with status := StatusCompleted, updatedAt := env.nowComp },
        ?_, Or.inl rfl, fun h => absurd h (by simp)⟩
    dsimp only
    rw [updateOne_same, updateOne_same, hfind]
    rfl

theorem processJob_none (env : Env) (store : Store) (jobID : Nat)
    (hfind : store jobID = none) : (processJob env store jobID).store = store := by
  unfold processJob
  rw [hfind]

/-- Invariant of reachable system states: the queue holds no duplicate
identifiers, every queued identifier has a record whose retry count is
strictly below `MaxRetries`, and every record's retry count lies between
0 and `MaxRetries`. -/
def Inv (s : SysState) : Prop :=
  s.queue.Nodup ∧
  (∀ id ∈ s.queue, ∃ j, s.store id = some j ∧ j.retryCount < MaxRetries) ∧
  (∀ id j, s.store id = some j → 0 ≤ j.retryCount ∧ j.retryCount ≤ MaxRetries)

theorem inv_init : Inv initState := by
  refine ⟨List.nodup_nil, ?_, ?_⟩
  · intro id hid
    cases hid
  · intro id j hj
    cases hj

theorem sysStep_preserves_inv (s s' : SysState) (hstep : SysStep s s')
    (hinv : Inv s) : Inv s' := by
  obtain ⟨hnodup, hqueue, hbound⟩ := hinv
  cases hstep with
  | create id ty p now hfresh hty hp =>
    have hid : id ∉ s.queue := by
      intro hmem
      obtain ⟨j, hj, _⟩ := hqueue id hmem
      rw [hfresh] at hj
      cases hj
    refine ⟨?_, ?_, ?_⟩
    · simp [List.nodup_append, hnodup, hid]
    · intro k hk
      rcases List.mem_append.1 hk with hk | hk
      · obtain ⟨j, hj, hlt⟩ := hqueue k hk
        have hkid : k ≠ id := by
          intro h
          subst h
          rw [hfresh] at hj
          cases hj
        exact ⟨j, by simpa [hkid] using hj, hlt⟩
      · have hkid : k = id := by simpa using hk
        subst hkid
        refine ⟨mkJob k ty p now, by simp, ?_⟩
        show (0 : Int) < MaxRetries
        decide
    · intro k j hj
      by_cases hkid : k = id
      · subst hkid
        have hj' : some (mkJob k ty p now) = some j := by simpa using hj
        injection hj' with hj'
        rw [← hj']
        refine ⟨le_refl 0, ?_⟩
        show (0 : Int) ≤ MaxRetries
        decide
      · exact hbound k j (by simpa [hkid] using hj)
  | deliver env jobID rest hq =>
    have hmemhd : jobID ∈ s.queue := by
      rw [hq]
      exact List.mem_cons_self jobID rest
    have hcons : jobID ∉ rest ∧ rest.Nodup := by
      rw [hq] at hnodup
      exact List.nodup_cons.1 hnodup
    obtain ⟨j0, hj0, hj0lt⟩ := hqueue jobID hmemhd
    obtain ⟨j1, hj1, hj1rc, hj1rq⟩ := processJob_at_id env s.store jobID j0 hj0
    refine ⟨?_, ?_, ?_⟩
    · by_cases hrq : (processJob env s.store jobID).requeued = true
      · simp [hrq, List.nodup_append, hcons.1, hcons.2]
      · simp [Bool.not_eq_true] at hrq
        simp [hrq, hcons.2]
    · intro k hk
      have hk2 : k ∈ rest ++
          (if (processJob env s.store jobID).requeued = true then [jobID] else []) := hk
      rcases List.mem_append.1 hk2 with hk3 | hk3
      · have hkid : k ≠ jobID := fun h => hcons.1 (h ▸ hk3)
        obtain ⟨j, hj, hlt⟩ := hqueue k (by rw [hq]; exact List.mem_cons_of_mem _ hk3)
        refine ⟨j, ?_, hlt⟩
        show (processJob env s.store jobID).store k = some j
        rw [processJob_other_keys env s.store jobID k hkid]
        exact hj
      · by_cases hrq : (processJob env s.store jobID).requeued = true
        · have hkid : k = jobID := by
            simp [hrq] at hk3
            exact hk3
          refine ⟨j1, ?_, ?_⟩
          · show (processJob env s.store jobID).store k = some j1
            rw [hkid]
            exact hj1
          · have h3 := hj1rq hrq
            rcases hj1rc with h | h <;> omega
        · simp [Bool.not_eq_true] at hrq
          simp [hrq] at hk3
    · intro k j hj
      have hj2 : (processJob env s.store jobID).store k = some j := hj
      by_cases hkid : k = jobID
      · rw [hkid] at hj2
        rw [hj1] at hj2
        injection hj2 with hj2
        obtain ⟨h0, h3⟩ := hbound jobID j0 hj0
        rw [← hj2]
        rcases hj1rc with h | h <;> constructor <;> omega
      · rw [processJob_other_keys env s.store jobID k hkid] at hj2
        exact hbound k j hj2

theorem sysStep_retry_mono (s s' : SysState) (hstep : SysStep s s') (id : Nat)
    (j j' : Job) (h : s.store id = some j) (h' : s'.store id = some j') :
    j.retryCount ≤ j'.retryCount := by
  cases hstep with
  | create idc ty p now hfresh hty hp =>
    by_cases hid : id = idc
    · subst hid
      rw [hfresh] at h
      cases h
    · have h2 : s.store id = some j' := by simpa [hid] using h'
      rw [h] at h2
      injection h2 with h2
      rw [h2]
  | deliver env jobID rest hq =>
    have h2 : (processJob env s.store jobID).store id = some j' := h'
    by_cases hid : id = jobID
    · rw [hid] at h2 h
      obtain ⟨j1, hj1, hj1rc, _⟩ := processJob_at_id env s.store jobID j h
      rw [hj1] at h2
      injection h2 with h2
      rw [← h2]
      rcases hj1rc with hc | hc <;> omega
    · rw [processJob_other_keys env s.store jobID id hid] at h2
      rw [h] at h2
      injection h2 with h2
      rw [h2]

theorem inv_of_reachable (s : SysState) (h : Reachable s) : Inv s := by
  induction h with
  | refl => exact inv_init
  | tail hab hstep ih =>
    exact sysStep_preserves_inv _ _ hstep ih

/-- C6: under the single-delivery discipline embodied by `SysStep`, every
record's retry count starts at 0 at creation, never drops across any
operation of the core, and in every reachable state lies between 0 and
`MaxRetries` (3). -/
theorem retry_count_bounded_and_monotone (s : SysState) (hreach : Reachable s) :
    (∀ id j, s.store id = some j → 0 ≤ j.retryCount ∧ j.retryCount ≤ MaxRetries) ∧
    (∀ s', SysStep s s' → ∀ id j j', s.store id = some j → s'.store id = some j' →
      j.retryCount ≤ j'.retryCount) ∧
    (∀ id ty p now, (mkJob id ty p now).retryCount = 0) := by
  refine ⟨(inv_of_reachable s hreach).2.2, ?_, fun id ty p now => rfl⟩
  intro s' hstep id j j' h h'
  exact sysStep_retry_mono s s' hstep id j j' h h'

/-- Concrete instance of `retry_count_bounded_and_monotone`: the state
reached by a single job creation has its one record's retry count between
0 and `MaxRetries`. -/
theorem retry_count_bounded_and_monotone_witness :
    0 ≤ (mkJob 0 "email" [("fail", JVal.bool true)] 0).retryCount ∧
    (mkJob 0 "email" [("fail", JVal.bool true)] 0).retryCount ≤ MaxRetries := by
  have hstep : SysStep initState
      ⟨fun k => if k = 0 then some (mkJob 0 "email" [("fail", JVal.bool true)] 0) else none, [0]⟩ :=
    SysStep.create initState 0 "email" [("fail", JVal.bool true)] 0 rfl
      (by decide) (by decide)
  have hreach : Reachable
      ⟨fun k => if k = 0 then some (mkJob 0 "email" [("fail", JVal.bool true)] 0) else none, [0]⟩ :=
    Relation.ReflTransGen.single hstep
  exact (retry_count_bounded_and_monotone _ hreach).1 0
    (mkJob 0 "email" [("fail", JVal.bool true)] 0) (by simp)

end JobQueue
